import Mathlib

/-!
A shallow embedding of the Employee-Benefits-Survey repository
(`survey_design_code.py`, class `ConjointSurveyDesigner`, and
`survey_analysis_app.py`, class `ConjointAnalyzer`), together with proofs of
the specification claims about it.

Conventions of the embedding:
* Benefit names are `String`s; respondent and question ids are `Nat`s.
* The Python alternative label `chr(65 + alt_id)` is modelled by its
  character code `65 + alt_id` (a `Nat`); equality of labels is equality of
  codes, which is all the code ever does with them.
* Python's global `random.sample(population, k)` is abstracted as a
  `Sampler`: a function of a call counter (each call advances the global
  random state, so two calls with equal arguments may differ), the
  population and `k`.  The structural contract of `random.sample` — when
  `k ≤ population.length` it returns `k` distinct positions, hence a
  duplicate-free sublist of a duplicate-free population — is assumed as
  hypotheses where a claim needs it; the uniformity of the distribution
  lives in this abstract parameter.
* Floating-point `NaN` values arising in the analyzer are modelled by
  `Option ℚ` (`none` = `NaN`); exact rational arithmetic stands in for
  floats, which is faithful for every quantity the claims inspect.
-/

namespace BenefitsSurvey

/-- Abstraction of `random.sample`: call counter, population, sample size. -/
abbrev Sampler := Nat → List String → Nat → List String

/-- One alternative of a choice question (`generate_question` builds these).
`alternative_id` is the character code of `chr(65 + alt_id)`. -/
structure Alternative where
  alternative_id : Nat
  benefits : List String
deriving Repr, DecidableEq

/-- One choice question (`generate_question`'s return value). -/
structure Question where
  question_id : Nat
  alternatives : List Alternative
deriving Repr, DecidableEq

/-- One respondent's survey (`generate_survey` builds one per respondent). -/
structure Survey where
  respondent_id : Nat
  questions : List Question
deriving Repr, DecidableEq

/-- Source `survey_design_code.py`, lines 20–22: the population actually sampled by
`generate_random_bundle`.  `available = [b for b in self.benefits if b not in
exclude_benefits]`; if `len(available) < self.items_per_alternative` the
availability is reset to the full catalog (`self.benefits.copy()`). -/
def availablePool (benefits : List String) (items : Nat) (exclude : List String) :
    List String :=
  let available := benefits.filter (fun b => decide (b ∉ exclude))
  if available.length < items then benefits else available

/-- Source `ConjointSurveyDesigner.generate_random_bundle`, instrumented with a flag
recording whether the catalog-reset fallback was taken (the Python function
returns only the sample; the flag exists so that theorems can speak about
"the fallback triggered").  The sample is
`random.sample(available, min(self.items_per_alternative, len(available)))`. -/
def generate_random_bundle_core (sampler : Sampler) (benefits : List String)
    (items : Nat) (exclude : List String) (seed : Nat) : List String × Bool :=
  let pool := availablePool benefits items exclude
  (sampler seed pool (min items pool.length),
   decide ((benefits.filter (fun b => decide (b ∉ exclude))).length < items))

/-- Source `ConjointSurveyDesigner.generate_random_bundle` (the value the Python
method returns). -/
def generate_random_bundle (sampler : Sampler) (benefits : List String)
    (items : Nat) (exclude : List String) (seed : Nat) : List String :=
  (generate_random_bundle_core sampler benefits items exclude seed).1

/-- The `for alt_id in range(self.n_alternatives)` loop of
`generate_question`: builds the alternatives, threading the `used_benefits`
exclusion set (`used_benefits.update(bundle)`) and the sampler's call
counter; additionally accumulates the fallback flags of the bundle draws. -/
def genAlternatives (sampler : Sampler) (benefits : List String) (items : Nat) :
    Nat → Nat → List String → Nat → List Alternative × Nat × Bool
  | 0, _, _, seed => ([], seed, false)
  | n + 1, altId, used, seed =>
    let b := generate_random_bundle_core sampler benefits items used seed
    let rest := genAlternatives sampler benefits items n (altId + 1) (used ++ b.1) (seed + 1)
    (⟨65 + altId, b.1⟩ :: rest.1, rest.2.1, b.2 || rest.2.2)

/-- Source `ConjointSurveyDesigner.generate_question`: one question with
`n_alternatives` alternatives labelled `chr(65+0), chr(65+1), …`, the
exclusion set starting empty (`used_benefits = set()`).  Returns the
question, the advanced sampler counter, and whether any bundle draw of this
question took the fallback. -/
def generate_question (sampler : Sampler) (benefits : List String) (items nAlt : Nat)
    (qid seed : Nat) : Question × Nat × Bool :=
  let r := genAlternatives sampler benefits items nAlt 0 [] seed
  (⟨qid, r.1⟩, r.2.1, r.2.2)

/-- The `for q_id in range(1, self.n_questions + 1)` loop of
`generate_survey`: `k` questions with ids counting up from `qid`. -/
def genQuestions (sampler : Sampler) (benefits : List String) (items nAlt : Nat) :
    Nat → Nat → Nat → List Question × Nat
  | 0, _, seed => ([], seed)
  | k + 1, qid, seed =>
    let q := generate_question sampler benefits items nAlt qid seed
    let rest := genQuestions sampler benefits items nAlt k (qid + 1) q.2.1
    (q.1 :: rest.1, rest.2)

/-- The `for resp_id in range(1, n_respondents + 1)` loop of
`generate_survey`: `k` surveys with respondent ids counting up from `rid`. -/
def genSurveys (sampler : Sampler) (benefits : List String) (items nq nAlt : Nat) :
    Nat → Nat → Nat → List Survey × Nat
  | 0, _, seed => ([], seed)
  | k + 1, rid, seed =>
    let qs := genQuestions sampler benefits items nAlt nq 1 seed
    let rest := genSurveys sampler benefits items nq nAlt k (rid + 1) qs.2
    (⟨rid, qs.1⟩ :: rest.1, rest.2)

/-- Source `ConjointSurveyDesigner.generate_survey(n_respondents)`: respondent ids
are `1 … n_respondents`, each with `n_questions` questions `1 … n_questions`. -/
def generate_survey (sampler : Sampler) (benefits : List String)
    (items nq nAlt nResp seed : Nat) : List Survey :=
  (genSurveys sampler benefits items nq nAlt nResp 1 seed).1

/-- One row of the exported design table
(`respondent_id, question_id, alternative, benefit_1 … benefit_k`).
`alternative` is the label's character code; `benefits` holds the
`benefit_1 … benefit_k` cells, the empty string modelling an empty cell. -/
structure DesignRow where
  respondent_id : Nat
  question_id : Nat
  alternative : Nat
  benefits : List String
deriving Repr, DecidableEq

/-- Line 70 of `export_to_csv`:
`alt['benefits'][i] if i < len(alt['benefits']) else ''`
for `i in range(self.items_per_alternative)`. -/
def padBenefits (items : Nat) (bundle : List String) : List String :=
  (List.range items).map (fun i => bundle.getD i "")

/-- Source `ConjointSurveyDesigner.export_to_csv`: one `DesignRow` per
(survey, question, alternative), in nesting order. -/
def export_to_csv (items : Nat) (surveys : List Survey) : List DesignRow :=
  surveys.flatMap (fun svy =>
    svy.questions.flatMap (fun q =>
      q.alternatives.map (fun alt =>
        ⟨svy.respondent_id, q.question_id, alt.alternative_id,
         padBenefits items alt.benefits⟩)))

/-- A concrete deterministic sampler used by witnesses: take the first `k`
elements.  It satisfies the structural contract of `random.sample`. -/
def takeSampler : Sampler := fun _ pop k => pop.take k

/-! Part two: `survey_analysis_app.py`, the `ConjointAnalyzer`. -/

/-- One row of the uploaded response table
(`respondent_id, question_id, chosen_alternative`); the chosen label is its
character code, as for `DesignRow.alternative`. -/
structure ResponseRow where
  respondent_id : Nat
  question_id : Nat
  chosen_alternative : Nat
deriving Repr, DecidableEq

/-- One row of `merge_data`'s output: a design row joined with its pair's
response (if any) and the derived `chosen` flag. -/
structure MergedRow where
  respondent_id : Nat
  question_id : Nat
  alternative : Nat
  benefits : List String
  chosen : Bool
deriving Repr, DecidableEq

/-- The merged rows one design row contributes to a left merge on
`(respondent_id, question_id)`: one copy per matching response row, or a
single copy with a missing `chosen_alternative` when no response matches;
`chosen = (alternative == chosen_alternative)`, where comparison with a
missing value is `False`. -/
def mergeRowsOf (d : DesignRow) (responses : List ResponseRow) : List MergedRow :=
  match responses.filter (fun r =>
      decide (r.respondent_id = d.respondent_id) &&
        decide (r.question_id = d.question_id)) with
  | [] => [⟨d.respondent_id, d.question_id, d.alternative, d.benefits, false⟩]
  | ms =>
    ms.map (fun r =>
      ⟨d.respondent_id, d.question_id, d.alternative, d.benefits,
       decide (d.alternative = r.chosen_alternative)⟩)

/-- Source `ConjointAnalyzer.merge_data`: the pandas left merge of the design table
with the response table on `(respondent_id, question_id)` followed by
`merged['chosen'] = (merged['alternative'] == merged['chosen_alternative'])`;
left order is preserved. -/
def mergeData (design : List DesignRow) (responses : List ResponseRow) :
    List MergedRow :=
  design.flatMap (fun d => mergeRowsOf d responses)

/-- One row of `calculate_preference_scores`' long-format table `data_long`
(benefit, chosen flag, respondent, question). -/
structure BenefitObs where
  benefit : String
  chosen : Bool
  respondent_id : Nat
  question_id : Nat
deriving Repr, DecidableEq

/-- Lines 51–62 of `calculate_preference_scores`: explode each merged row's
benefit cells into one observation per non-empty cell
(`if pd.notna(benefit) and benefit != ''`; a missing/NaN cell is modelled by
the empty string). -/
def explodeObservations (merged : List MergedRow) : List BenefitObs :=
  merged.flatMap (fun row =>
    (row.benefits.filter (fun b => decide (b ≠ ""))).map (fun b =>
      ⟨b, row.chosen, row.respondent_id, row.question_id⟩))

/-- Source `times_shown` of a benefit: the observation count of its group
(`agg 'count'`). -/
def timesShown (obs : List BenefitObs) (b : String) : Nat :=
  obs.countP (fun o => decide (o.benefit = b))

/-- Source `times_chosen` of a benefit: the sum of the 0/1 `chosen` flags of its
group (`agg 'sum'`). -/
def timesChosen (obs : List BenefitObs) (b : String) : Nat :=
  obs.countP (fun o => decide (o.benefit = b) && o.chosen)

/-- Source `choice_rate` of a benefit (`agg 'mean'` = sum/count).  Only benefits
that occur in the data are ever grouped, so the denominator is positive
wherever this is used. -/
def choiceRate (obs : List BenefitObs) (b : String) : ℚ :=
  (timesChosen obs b : ℚ) / (timesShown obs b : ℚ)

/-- Insert a benefit name into a sorted duplicate-free list. -/
def insertName (b : String) : List String → List String
  | [] => [b]
  | x :: xs =>
    if b = x then x :: xs
    else if b < x then b :: x :: xs
    else x :: insertName b xs

/-- The group keys of `df_long.groupby('benefit')`: the distinct benefit
names of the observations, in ascending order (pandas sorts group keys). -/
def sortedNames (obs : List BenefitObs) : List String :=
  obs.foldl (fun acc o => insertName o.benefit acc) []

/-- One row of the scorecard `benefit_stats`.  `utility_score : Option ℚ`,
with `none` modelling a float `NaN`. -/
structure ScoreEntry where
  benefit : String
  times_chosen : Nat
  times_shown : Nat
  choice_rate : ℚ
  utility_score : Option ℚ
  preference_pct : ℚ
deriving Repr, DecidableEq

/-- Source `benefit_stats['choice_rate'].std()` (pandas default `ddof=1`), modelled
up to the final square root: `none` (`NaN`) when fewer than two groups
exist, otherwise the sample variance `Σ (x − mean)² / (n − 1)`.  The true
standard deviation is the square root of this value; the square root is
irrational on ℚ, and every claim below depends only on the zero/`NaN`
structure and the relative order of utilities, both of which the monotone
map `x ↦ x²` preserves. -/
def stdModel (rates : List ℚ) : Option ℚ :=
  if rates.length ≤ 1 then none
  else
    some (((rates.map (fun r => (r - rates.sum / rates.length) ^ 2)).sum) /
      ((rates.length : ℚ) - 1))

/-- Line 74–77 of `calculate_preference_scores` for one benefit:
`(choice_rate − mean) / std × 100`.  In floats, a `NaN` std gives `NaN`, and
a zero std gives `0.0 / 0.0 = NaN` (rates all equal the mean there); no
exception is raised. -/
def utilityScore (std : Option ℚ) (mean rate : ℚ) : Option ℚ :=
  match std with
  | none => none
  | some s => if s = 0 then none else some ((rate - mean) / s * 100)

/-- Ordering used by `sort_values('utility_score', ascending=False)`:
larger utilities first, `NaN` last (`na_position='last'`). -/
def utilBefore (a b : Option ℚ) : Bool :=
  match a, b with
  | some x, some y => decide (y ≤ x)
  | some _, none => true
  | none, some _ => false
  | none, none => true

/-- Insertion step of the sort on the scorecard. -/
def insertScore (e : ScoreEntry) : List ScoreEntry → List ScoreEntry
  | [] => [e]
  | x :: xs =>
    if utilBefore x.utility_score e.utility_score then x :: insertScore e xs
    else e :: x :: xs

/-- Source `benefit_stats.sort_values('utility_score', ascending=False)`, as a
deterministic insertion sort (pandas' quicksort order on ties is
unspecified but deterministic; the spec requires only determinism). -/
def sortScores : List ScoreEntry → List ScoreEntry
  | [] => []
  | e :: es => insertScore e (sortScores es)

/-- The body of `calculate_preference_scores` as a pure function of the
merged table: explode to observations, group by benefit, aggregate
sum/count/mean, standardize into `utility_score`, compute
`preference_pct = choice_rate * 100`, and sort by descending utility. -/
def calcPreferenceScores (merged : List MergedRow) : List ScoreEntry :=
  let obs := explodeObservations merged
  let names := sortedNames obs
  let rates := names.map (choiceRate obs)
  let mean := rates.sum / (rates.length : ℚ)
  let std := stdModel rates
  sortScores (names.map (fun b =>
    ⟨b, timesChosen obs b, timesShown obs b, choiceRate obs b,
     utilityScore std mean (choiceRate obs b), choiceRate obs b * 100⟩))

/-- A Python exception surfaced by the analyzer. -/
inductive PyError where
  /-- Source `AttributeError: 'NoneType' object has no attribute 'iterrows'`. -/
  | noneTypeNoIterrows : PyError
deriving Repr, DecidableEq

/-- The mutable state of a `ConjointAnalyzer` instance: `__init__` stores
the two input tables and sets `self.merged_df = None`,
`self.results_df = None`. -/
structure ConjointAnalyzer where
  design_df : List DesignRow
  response_df : List ResponseRow
  merged_df : Option (List MergedRow)
  results_df : Option (List ScoreEntry)
deriving Repr, DecidableEq

/-- Source `ConjointAnalyzer.__init__(design_df, response_df)`. -/
def ConjointAnalyzer.init (design : List DesignRow) (responses : List ResponseRow) :
    ConjointAnalyzer :=
  ⟨design, responses, none, none⟩

/-- Source `ConjointAnalyzer.merge_data` as a method: computes the merge, stores it
in `self.merged_df` and returns it. -/
def ConjointAnalyzer.merge_data (a : ConjointAnalyzer) :
    List MergedRow × ConjointAnalyzer :=
  let m := mergeData a.design_df a.response_df
  (m, { a with merged_df := some m })

/-- Source `ConjointAnalyzer.calculate_preference_scores` as a method: iterates
`self.merged_df.iterrows()`; when `merged_df` is still `None` this raises
`AttributeError` (modelled as `Except.error`), otherwise it computes the
scorecard, stores it in `self.results_df` and returns it. -/
def ConjointAnalyzer.calculate_preference_scores (a : ConjointAnalyzer) :
    Except PyError (List ScoreEntry × ConjointAnalyzer) :=
  match a.merged_df with
  | none => .error .noneTypeNoIterrows
  | some m =>
    let s := calcPreferenceScores m
    .ok (s, { a with results_df := some s })

/-! Part three: `ConjointAnalyzer.calculate_logit_regression` (lines 88–136).

The statsmodels library is an external dependency, abstracted as an
environment: whether the `from statsmodels… import MNLogit` succeeds, and
what `MNLogit(y, X).fit(disp=0)` does.  The source wraps the whole body in
`try: … except ImportError: return None` — only `ImportError` is caught. -/

/-- An exception raised while fitting the model (e.g. a linear-algebra
error on a singular design matrix, or statsmodels' perfect-separation
error); such exceptions are not `ImportError`s. -/
inductive FitError where
  | convergenceFailure : FitError
  | numericalError : FitError
deriving Repr, DecidableEq

/-- The abstract statsmodels environment: `available = false` makes the
module import raise `ImportError`; `fit` is `MNLogit(y, X).fit(disp=0)` plus
extraction of `result.params` and `result.pvalues`. -/
structure StatsmodelsEnv where
  available : Bool
  fit : List (List Nat) → List Bool → Except FitError (List ℚ × List ℚ)

/-- One row of the `logit_results` table. -/
structure LogitRow where
  benefit : String
  coefficient : ℚ
  p_value : ℚ
deriving Repr, DecidableEq

/-- Lines 97–101: collect the distinct non-missing benefit names of the
design table's benefit columns (`list(set(...))`; Python's set iteration
order is arbitrary, `List.dedup` is one deterministic choice of it). -/
def allBenefitsOf (design : List DesignRow) : List String :=
  ((design.flatMap DesignRow.benefits).filter (fun b => decide (b ≠ ""))).dedup

/-- Lines 103–119: the binary feature matrix `X` (one 0/1 column per
benefit, `1` iff the benefit appears among the row's non-empty cells) and
the target `y` (the rows' `chosen` flags). -/
def buildFeatures (design : List DesignRow) (merged : List MergedRow) :
    List String × List (List Nat) × List Bool :=
  let names := allBenefitsOf design
  (names,
   merged.map (fun row =>
     names.map (fun bf =>
       if bf ∈ row.benefits.filter (fun b => decide (b ≠ "")) then 1 else 0)),
   merged.map MergedRow.chosen)

/-- Insertion step of `sort_values('coefficient', ascending=False)`. -/
def insertLogitRow (e : LogitRow) : List LogitRow → List LogitRow
  | [] => [e]
  | x :: xs =>
    if decide (e.coefficient ≤ x.coefficient) then x :: insertLogitRow e xs
    else e :: x :: xs

/-- Source `logit_results.sort_values('coefficient', ascending=False)`. -/
def sortLogitRows : List LogitRow → List LogitRow
  | [] => []
  | e :: es => insertLogitRow e (sortLogitRows es)

/-- Source `ConjointAnalyzer.calculate_logit_regression`: when the import fails the
`except ImportError` branch returns `None` (after a UI warning); any other
exception — in particular one raised while fitting — is not caught and
propagates to the caller. -/
def calculate_logit_regression (env : StatsmodelsEnv) (design : List DesignRow)
    (merged : List MergedRow) : Except FitError (Option (List LogitRow)) :=
  if env.available then
    let t := buildFeatures design merged
    match env.fit t.2.1 t.2.2 with
    | .error e => .error e
    | .ok pq =>
      .ok (some (sortLogitRows
        ((t.1.zip (pq.1.zip pq.2)).map (fun x => ⟨x.1, x.2.1, x.2.2⟩))))
  else
    .ok none

/-! Helper lemmas. -/

theorem takeSampler_length (s : Nat) (pop : List String) (k : Nat)
    (h : k ≤ pop.length) : (takeSampler s pop k).length = k := by
  simp [takeSampler, Nat.min_eq_left h]

theorem takeSampler_nodup (s : Nat) (pop : List String) (k : Nat)
    (h : pop.Nodup) : (takeSampler s pop k).Nodup :=
  h.sublist (List.take_sublist k pop)

theorem takeSampler_subset (s : Nat) (pop : List String) (k : Nat) :
    ∀ x ∈ takeSampler s pop k, x ∈ pop := fun _ hx =>
  List.take_subset k pop hx

theorem genAlternatives_length (sampler : Sampler) (benefits : List String)
    (items : Nat) : ∀ n altId used seed,
    ((genAlternatives sampler benefits items n altId used seed).1).length = n := by
  intro n
  induction n with
  | zero => intro altId used seed; rfl
  | succ m ih =>
    intro altId used seed
    simp only [genAlternatives, List.length_cons, ih]

theorem genQuestions_length (sampler : Sampler) (benefits : List String)
    (items nAlt : Nat) : ∀ k qid seed,
    ((genQuestions sampler benefits items nAlt k qid seed).1).length = k := by
  intro k
  induction k with
  | zero => intro qid seed; rfl
  | succ m ih =>
    intro qid seed
    simp only [genQuestions, List.length_cons, ih]

theorem genQuestions_alt_length (sampler : Sampler) (benefits : List String)
    (items nAlt : Nat) : ∀ k qid seed,
    ∀ q ∈ (genQuestions sampler benefits items nAlt k qid seed).1,
      q.alternatives.length = nAlt := by
  intro k
  induction k with
  | zero => intro qid seed q hq; cases hq
  | succ m ih =>
    intro qid seed q hq
    simp only [genQuestions, List.mem_cons] at hq
    cases hq with
    | inl h =>
      subst h
      simp only [generate_question, genAlternatives_length]
    | inr h => exact ih (qid + 1) _ q h

theorem genSurveys_length (sampler : Sampler) (benefits : List String)
    (items nq nAlt : Nat) : ∀ k rid seed,
    ((genSurveys sampler benefits items nq nAlt k rid seed).1).length = k := by
  intro k
  induction k with
  | zero => intro rid seed; rfl
  | succ m ih =>
    intro rid seed
    simp only [genSurveys, List.length_cons, ih]

theorem genSurveys_shape (sampler : Sampler) (benefits : List String)
    (items nq nAlt : Nat) : ∀ k rid seed,
    ∀ svy ∈ (genSurveys sampler benefits items nq nAlt k rid seed).1,
      svy.questions.length = nq ∧
        ∀ q ∈ svy.questions, q.alternatives.length = nAlt := by
  intro k
  induction k with
  | zero => intro rid seed svy h; cases h
  | succ m ih =>
    intro rid seed svy h
    simp only [genSurveys, List.mem_cons] at h
    cases h with
    | inl h =>
      subst h
      exact ⟨genQuestions_length sampler benefits items nAlt nq 1 seed,
        genQuestions_alt_length sampler benefits items nAlt nq 1 seed⟩
    | inr h => exact ih (rid + 1) _ svy h

theorem length_flatMap_const {α β : Type} (l : List α) (f : α → List β) (c : Nat)
    (h : ∀ x ∈ l, (f x).length = c) : (l.flatMap f).length = l.length * c := by
  induction l with
  | nil => simp
  | cons a t ih =>
    simp only [List.flatMap_cons, List.length_append, List.length_cons,
      h a (List.mem_cons_self a t), ih (fun x hx => h x (List.mem_cons_of_mem a hx))]
    ring

theorem padBenefits_length (items : Nat) (bundle : List String) :
    (padBenefits items bundle).length = items := by
  simp [padBenefits]

theorem export_length (items nq nAlt : Nat) (surveys : List Survey)
    (h : ∀ svy ∈ surveys, svy.questions.length = nq ∧
      ∀ q ∈ svy.questions, q.alternatives.length = nAlt) :
    (export_to_csv items surveys).length = surveys.length * (nq * nAlt) := by
  refine length_flatMap_const surveys _ (nq * nAlt) (fun svy hs => ?_)
  obtain ⟨hql, hal⟩ := h svy hs
  rw [← hql]
  refine length_flatMap_const svy.questions _ nAlt (fun q hq => ?_)
  rw [List.length_map]
  exact hal q hq

theorem mem_export_benefits_length (items : Nat) (surveys : List Survey) :
    ∀ row ∈ export_to_csv items surveys, row.benefits.length = items := by
  intro row hrow
  simp only [export_to_csv, List.mem_flatMap, List.mem_map] at hrow
  obtain ⟨svy, -, q, -, alt, -, hrw⟩ := hrow
  rw [← hrw]
  exact padBenefits_length items alt.benefits

theorem bundle_core_benefits_nil (sampler : Sampler)
    (hlen : ∀ s pop k, k ≤ pop.length → (sampler s pop k).length = k)
    (items : Nat) (exclude : List String) (seed : Nat) :
    (generate_random_bundle_core sampler [] items exclude seed).1 = [] := by
  have hpool : availablePool [] items exclude = [] := by
    simp [availablePool]
  apply List.length_eq_zero.1
  simp only [generate_random_bundle_core, hpool]
  simpa using hlen seed [] (min items 0) (by simp)

theorem genAlternatives_benefits_nil (sampler : Sampler)
    (hlen : ∀ s pop k, k ≤ pop.length → (sampler s pop k).length = k)
    (items : Nat) : ∀ n altId used seed,
    ∀ alt ∈ (genAlternatives sampler [] items n altId used seed).1,
      alt.benefits = [] := by
  intro n
  induction n with
  | zero => intro altId used seed alt h; cases h
  | succ m ih =>
    intro altId used seed alt h
    simp only [genAlternatives, List.mem_cons] at h
    cases h with
    | inl h =>
      subst h
      exact bundle_core_benefits_nil sampler hlen items used seed
    | inr h => exact ih (altId + 1) _ _ alt h

theorem genSurveys_benefits_nil (sampler : Sampler)
    (hlen : ∀ s pop k, k ≤ pop.length → (sampler s pop k).length = k)
    (items nq nAlt : Nat) : ∀ k rid seed,
    ∀ svy ∈ (genSurveys sampler [] items nq nAlt k rid seed).1,
      ∀ q ∈ svy.questions, ∀ alt ∈ q.alternatives, alt.benefits = [] := by
  intro k
  induction k with
  | zero => intro rid seed svy h; cases h
  | succ m ih =>
    intro rid seed svy h
    simp only [genSurveys, List.mem_cons] at h
    cases h with
    | inl h =>
      subst h
      intro q hq alt halt
      have : ∀ j qid s, ∀ q ∈ (genQuestions sampler [] items nAlt j qid s).1,
          ∀ alt ∈ q.alternatives, alt.benefits = [] := by
        intro j
        induction j with
        | zero => intro qid s q hq; cases hq
        | succ jm jih =>
          intro qid s q hq
          simp only [genQuestions, List.mem_cons] at hq
          cases hq with
          | inl hq =>
            subst hq
            intro alt halt
            exact genAlternatives_benefits_nil sampler hlen items nAlt 0 [] s alt halt
          | inr hq => exact jih (qid + 1) _ q hq
      exact this nq 1 seed q hq alt halt
    | inr h => exact ih (rid + 1) _ svy h

theorem genQuestions_zero_eq (sampler : Sampler) (benefits : List String)
    (items nAlt qid seed : Nat) :
    genQuestions sampler benefits items nAlt 0 qid seed = ([], seed) := rfl

theorem genAlternatives_disjoint (sampler : Sampler)
    (hsub : ∀ s pop k, ∀ x ∈ sampler s pop k, x ∈ pop)
    (benefits : List String) (items : Nat) :
    ∀ n altId used seed,
      (genAlternatives sampler benefits items n altId used seed).2.2 = false →
      (∀ alt ∈ (genAlternatives sampler benefits items n altId used seed).1,
          ∀ x ∈ alt.benefits, x ∉ used)
      ∧ List.Pairwise (fun a b => ∀ x ∈ a.benefits, x ∉ b.benefits)
          (genAlternatives sampler benefits items n altId used seed).1 := by
  intro n
  induction n with
  | zero =>
    intro altId used seed _
    exact ⟨fun alt h => absurd h (List.not_mem_nil alt), List.Pairwise.nil⟩
  | succ m ih =>
    intro altId used seed hflag
    simp only [genAlternatives] at hflag ⊢
    obtain ⟨hb, hrest⟩ := Bool.or_eq_false_iff.mp hflag
    have hnofall :
        ¬(benefits.filter (fun b => decide (b ∉ used))).length < items := by
      simpa [generate_random_bundle_core] using hb
    have hbundle : ∀ x ∈ (generate_random_bundle_core sampler benefits items used seed).1,
        x ∈ benefits ∧ x ∉ used := by
      intro x hx
      have hpool : availablePool benefits items used
          = benefits.filter (fun b => decide (b ∉ used)) := by
        rw [availablePool, if_neg hnofall]
      have := hsub seed (availablePool benefits items used) _ x hx
      rw [hpool, List.mem_filter] at this
      exact ⟨this.1, by simpa using this.2⟩
    obtain ⟨ihead, ipair⟩ := ih (altId + 1)
      (used ++ (generate_random_bundle_core sampler benefits items used seed).1)
      (seed + 1) hrest
    constructor
    · intro alt halt x hx
      rcases List.mem_cons.mp halt with h | h
      · subst h
        exact (hbundle x hx).2
      · have := ihead alt h x hx
        simp only [List.mem_append] at this
        exact fun hu => this (Or.inl hu)
    · rw [List.pairwise_cons]
      refine ⟨?_, ipair⟩
      intro alt halt x hx
      intro hxalt
      have := ihead alt halt x hxalt
      simp only [List.mem_append] at this
      exact this (Or.inr hx)

theorem countP_le_one_of_pairwise {α : Type} {P : α → α → Prop} {Q : α → Bool}
    {l : List α} (hp : l.Pairwise P)
    (h : ∀ a b, Q a = true → Q b = true → P a b → False) :
    l.countP Q ≤ 1 := by
  induction hp with
  | nil => simp
  | @cons a l ha _ ih =>
    rw [List.countP_cons]
    by_cases hQ : Q a = true
    · have h0 : l.countP Q = 0 :=
        List.countP_eq_zero.2 (fun b hb hQb => h a b hQ hQb (ha b hb))
      simp [h0, hQ]
    · rw [if_neg hQ]
      simpa using ih

theorem genAlternatives_labels (sampler : Sampler) (benefits : List String)
    (items : Nat) : ∀ n altId used seed,
    (∀ c ∈ (genAlternatives sampler benefits items n altId used seed).1.map
        Alternative.alternative_id, 65 + altId ≤ c)
    ∧ ((genAlternatives sampler benefits items n altId used seed).1.map
        Alternative.alternative_id).Nodup := by
  intro n
  induction n with
  | zero =>
    intro altId used seed
    exact ⟨fun c hc => absurd hc (List.not_mem_nil c), List.nodup_nil⟩
  | succ m ih =>
    intro altId used seed
    simp only [genAlternatives, List.map_cons]
    obtain ⟨ibound, inodup⟩ := ih (altId + 1)
      (used ++ (generate_random_bundle_core sampler benefits items used seed).1)
      (seed + 1)
    constructor
    · intro c hc
      rcases List.mem_cons.mp hc with h | h
      · omega
      · have := ibound c h
        omega
    · rw [List.nodup_cons]
      refine ⟨fun hmem => ?_, inodup⟩
      have := ibound _ hmem
      omega

theorem mergeRowsOf_fields (d : DesignRow) (responses : List ResponseRow) :
    ∀ m ∈ mergeRowsOf d responses,
      m.respondent_id = d.respondent_id ∧ m.question_id = d.question_id := by
  intro m hm
  rw [mergeRowsOf] at hm
  split at hm
  · simp only [List.mem_singleton] at hm
    subst hm
    exact ⟨rfl, rfl⟩
  · obtain ⟨r, -, rfl⟩ := List.mem_map.mp hm
    exact ⟨rfl, rfl⟩

/-- Whether a design row of the pair `(rid, qid)` with alternative label
`alt` would be flagged chosen: true exactly when the pair has a unique
matching response row choosing `alt`.  (A proof device for bounding the
chosen count; not part of the source.) -/
def respMatchFlag (responses : List ResponseRow) (rid qid alt : Nat) : Bool :=
  match responses.filter (fun r =>
      decide (r.respondent_id = rid) && decide (r.question_id = qid)) with
  | [r] => decide (alt = r.chosen_alternative)
  | _ => false

theorem mergeData_chosen_count (responses : List ResponseRow) (rid qid : Nat)
    (hresp : (responses.filter (fun r =>
        decide (r.respondent_id = rid) && decide (r.question_id = qid))).length ≤ 1) :
    ∀ design : List DesignRow,
      (mergeData design responses).countP
          (fun m => decide (m.respondent_id = rid) && decide (m.question_id = qid)
            && m.chosen)
        ≤ design.countP (fun d =>
            decide (d.respondent_id = rid) && decide (d.question_id = qid) &&
              respMatchFlag responses rid qid d.alternative) := by
  intro design
  induction design with
  | nil => simp [mergeData]
  | cons d D ih =>
    have hsplit : mergeData (d :: D) responses
        = mergeRowsOf d responses ++ mergeData D responses := by
      simp [mergeData, List.flatMap_cons]
    rw [hsplit, List.countP_append, List.countP_cons]
    by_cases hpair : d.respondent_id = rid ∧ d.question_id = qid
    · obtain ⟨hr1, hr2⟩ := hpair
      have hfeq : responses.filter (fun r =>
          decide (r.respondent_id = d.respondent_id) &&
            decide (r.question_id = d.question_id))
          = responses.filter (fun r =>
              decide (r.respondent_id = rid) && decide (r.question_id = qid)) := by
        rw [hr1, hr2]
      cases hM : responses.filter (fun r =>
          decide (r.respondent_id = rid) && decide (r.question_id = qid)) with
      | nil =>
        have hflag : ∀ a, respMatchFlag responses rid qid a = false := by
          intro a
          rw [respMatchFlag, hM]
        have hrows : mergeRowsOf d responses
            = [⟨d.respondent_id, d.question_id, d.alternative, d.benefits, false⟩] := by
          rw [mergeRowsOf, hfeq, hM]
        rw [hrows]
        have e1 : List.countP
            (fun m => decide (m.respondent_id = rid) && decide (m.question_id = qid)
              && m.chosen)
            ([⟨d.respondent_id, d.question_id, d.alternative, d.benefits, false⟩] :
              List MergedRow) = 0 := by
          simp
        rw [e1]
        simp only [hflag, Bool.and_false] at ih ⊢
        simpa using ih
      | cons r tail =>
        cases tail with
        | cons r2 t2 =>
          rw [hM] at hresp
          simp at hresp
        | nil =>
          have hflag : ∀ a, respMatchFlag responses rid qid a
              = decide (a = r.chosen_alternative) := by
            intro a
            rw [respMatchFlag, hM]
          have hrows : mergeRowsOf d responses
              = [⟨d.respondent_id, d.question_id, d.alternative, d.benefits,
                  decide (d.alternative = r.chosen_alternative)⟩] := by
            rw [mergeRowsOf, hfeq, hM]
            rfl
          rw [hrows]
          have e1 : List.countP
              (fun m => decide (m.respondent_id = rid) && decide (m.question_id = qid)
                && m.chosen)
              ([⟨d.respondent_id, d.question_id, d.alternative, d.benefits,
                decide (d.alternative = r.chosen_alternative)⟩] : List MergedRow)
              = if d.alternative = r.chosen_alternative then 1 else 0 := by
            by_cases hc : d.alternative = r.chosen_alternative
            · simp [hr1, hr2, hc]
            · simp [hr1, hr2, hc]
          rw [e1]
          simp only [hflag] at ih ⊢
          have e2 : (decide (d.respondent_id = rid) && decide (d.question_id = qid) &&
              decide (d.alternative = r.chosen_alternative))
              = decide (d.alternative = r.chosen_alternative) := by
            simp [hr1, hr2]
          rw [e2]
          have e3 : (if decide (d.alternative = r.chosen_alternative) = true
              then (1 : Nat) else 0)
              = if d.alternative = r.chosen_alternative then 1 else 0 := by
            by_cases hc : d.alternative = r.chosen_alternative
            · simp [hc]
            · simp [hc]
          rw [e3]
          omega
    · have hrows0 : (mergeRowsOf d responses).countP
          (fun m => decide (m.respondent_id = rid) && decide (m.question_id = qid)
            && m.chosen) = 0 := by
        apply List.countP_eq_zero.2
        intro m hm hpred
        obtain ⟨h1, h2⟩ := mergeRowsOf_fields d responses m hm
        simp only [Bool.and_eq_true, decide_eq_true_eq] at hpred
        exact hpair ⟨h1 ▸ hpred.1.1, h2 ▸ hpred.1.2⟩
      have hpredd : (decide (d.respondent_id = rid) && decide (d.question_id = qid) &&
          respMatchFlag responses rid qid d.alternative) = false := by
        rcases Decidable.not_and_iff_or_not.mp hpair with h | h
        · simp [h]
        · simp [h]
      rw [hrows0, hpredd]
      simpa using ih

theorem mem_insertScore (e a : ScoreEntry) :
    ∀ l : List ScoreEntry, a ∈ insertScore e l ↔ a = e ∨ a ∈ l := by
  intro l
  induction l with
  | nil => simp [insertScore]
  | cons x xs ih =>
    rw [insertScore]
    split
    · simp only [List.mem_cons, ih]
      tauto
    · simp only [List.mem_cons]

theorem mem_sortScores (a : ScoreEntry) :
    ∀ l : List ScoreEntry, a ∈ sortScores l ↔ a ∈ l := by
  intro l
  induction l with
  | nil => simp [sortScores]
  | cons x xs ih =>
    rw [sortScores, mem_insertScore]
    simp only [List.mem_cons, ih]

/-! The claims. -/

/-- C1, counterexample.  The claim says a configuration with an empty
benefit catalog makes `ConjointSurveyDesigner` construction followed by
`generate_survey` fail before generation with a validation error and produce
no output.  Instead, with an empty catalog (and respondent count 1, one
question of two alternatives, two benefits per alternative) generation
completes normally and returns a fully-formed survey whose bundles are all
empty — no validation is performed anywhere. -/
theorem c1_counterexample :
    generate_survey takeSampler [] 2 1 2 1 0 =
      [⟨1, [⟨1, [⟨65, []⟩, ⟨66, []⟩]⟩]⟩] := by
  rfl

/-- C2, counterexample.  The claim says that when all benefits have
identical choice rates the engine returns a well-defined numeric sentinel
utility score (e.g. 0) for every benefit.  On a design in which benefits
`X` and `Y` are always shown together and always chosen (choice rate 1 for
both, hence zero standard deviation), `calculate_preference_scores` instead
computes `0.0 / 0.0`, which in floats is `NaN` (modelled by `none`), for
every benefit — a missing value, not a numeric sentinel. -/
theorem c2_counterexample :
    (calcPreferenceScores
        (mergeData [⟨1, 1, 65, ["X", "Y"]⟩] [⟨1, 1, 65⟩])).map
      ScoreEntry.utility_score = [none, none] := by
  have hYX : ¬("Y" : String) < "X" := by
    rw [String.lt_iff_toList_lt]; decide
  have hm : mergeData [⟨1, 1, 65, ["X", "Y"]⟩] [⟨1, 1, 65⟩] =
      [⟨1, 1, 65, ["X", "Y"], true⟩] := by decide
  have hobs : explodeObservations [⟨1, 1, 65, ["X", "Y"], true⟩] =
      [⟨"X", true, 1, 1⟩, ⟨"Y", true, 1, 1⟩] := by decide
  have hnames : sortedNames [⟨"X", true, 1, 1⟩, ⟨"Y", true, 1, 1⟩] = ["X", "Y"] := by
    simp [sortedNames, List.foldl, insertName, hYX]
  have hXY : ("X" : String) ≠ "Y" := by decide
  have hrX : choiceRate [⟨"X", true, 1, 1⟩, ⟨"Y", true, 1, 1⟩] "X" = 1 := by
    norm_num [choiceRate, timesChosen, timesShown, List.countP_cons, List.countP_nil,
      hXY, hXY.symm]
  have hrY : choiceRate [⟨"X", true, 1, 1⟩, ⟨"Y", true, 1, 1⟩] "Y" = 1 := by
    norm_num [choiceRate, timesChosen, timesShown, List.countP_cons, List.countP_nil,
      hXY, hXY.symm]
  rw [hm]
  simp only [calcPreferenceScores, hobs, hnames, List.map_cons, List.map_nil, hrX, hrY]
  norm_num [stdModel, utilityScore, sortScores, insertScore, utilBefore]

/-- C2 (amended).  When all benefits appearing in the merged data have
identical choice rates (including the single-benefit case), the engine
raises no division-by-zero failure — the computation is total — but the
`utility_score` it returns for every benefit is the float `NaN` (`none`),
i.e. the propagated missing value of `0.0 / 0.0` (zero stddev) or of the
`NaN` stddev of a single group, not a numeric sentinel such as 0. -/
theorem c2_nan_utility (merged : List MergedRow)
    (hconst : ∀ b1 ∈ sortedNames (explodeObservations merged),
        ∀ b2 ∈ sortedNames (explodeObservations merged),
          choiceRate (explodeObservations merged) b1
            = choiceRate (explodeObservations merged) b2) :
    ∀ e ∈ calcPreferenceScores merged, e.utility_score = none := by
  intro e he
  simp only [calcPreferenceScores] at he
  rw [mem_sortScores] at he
  obtain ⟨b, hb, rfl⟩ := List.mem_map.mp he
  by_cases h1 :
      ((sortedNames (explodeObservations merged)).map
        (choiceRate (explodeObservations merged))).length ≤ 1
  · have h1' : (sortedNames (explodeObservations merged)).length ≤ 1 := by
      simpa using h1
    simp [stdModel, utilityScore, h1']
  · have hv : ∀ r ∈ (sortedNames (explodeObservations merged)).map
        (choiceRate (explodeObservations merged)),
        r = choiceRate (explodeObservations merged) b := by
      intro r hr
      obtain ⟨b', hb', rfl⟩ := List.mem_map.mp hr
      exact hconst b' hb' b hb
    have hlenpos : (0 : ℚ) <
        (((sortedNames (explodeObservations merged)).map
          (choiceRate (explodeObservations merged))).length : ℚ) := by
      have : 2 ≤ ((sortedNames (explodeObservations merged)).map
          (choiceRate (explodeObservations merged))).length := by omega
      exact_mod_cast Nat.lt_of_lt_of_le (by norm_num) this
    have hsum : ((sortedNames (explodeObservations merged)).map
        (choiceRate (explodeObservations merged))).sum =
        (((sortedNames (explodeObservations merged)).map
          (choiceRate (explodeObservations merged))).length : ℚ) *
          choiceRate (explodeObservations merged) b := by
      rw [List.sum_eq_card_nsmul _ _ hv, nsmul_eq_mul]
    have hmean : ((sortedNames (explodeObservations merged)).map
        (choiceRate (explodeObservations merged))).sum /
        (((sortedNames (explodeObservations merged)).map
          (choiceRate (explodeObservations merged))).length : ℚ) =
        choiceRate (explodeObservations merged) b := by
      rw [hsum, mul_div_cancel_left₀ _ (ne_of_gt hlenpos)]
    have hzero : (((sortedNames (explodeObservations merged)).map
        (choiceRate (explodeObservations merged))).map
          (fun r => (r - ((sortedNames (explodeObservations merged)).map
            (choiceRate (explodeObservations merged))).sum /
            (((sortedNames (explodeObservations merged)).map
              (choiceRate (explodeObservations merged))).length : ℚ)) ^ 2)).sum = 0 := by
      apply List.sum_eq_zero
      intro x hx
      obtain ⟨r, hr, rfl⟩ := List.mem_map.mp hx
      rw [hmean, hv r hr]
      ring
    have hstd : stdModel ((sortedNames (explodeObservations merged)).map
        (choiceRate (explodeObservations merged))) = some 0 := by
      rw [stdModel, if_neg h1, hzero, zero_div]
    simp [hstd, utilityScore]

/-- C2, witness.  The amended claim at a concrete degenerate input: a
single-benefit catalog, always shown and always chosen — the utility score
of every scorecard entry is `NaN`. -/
theorem c2_witness :
    (∀ b1 ∈ sortedNames (explodeObservations
        (mergeData [⟨1, 1, 65, ["X"]⟩] [⟨1, 1, 65⟩])),
      ∀ b2 ∈ sortedNames (explodeObservations
        (mergeData [⟨1, 1, 65, ["X"]⟩] [⟨1, 1, 65⟩])),
        choiceRate (explodeObservations
            (mergeData [⟨1, 1, 65, ["X"]⟩] [⟨1, 1, 65⟩])) b1
          = choiceRate (explodeObservations
              (mergeData [⟨1, 1, 65, ["X"]⟩] [⟨1, 1, 65⟩])) b2)
    ∧ (∀ e ∈ calcPreferenceScores (mergeData [⟨1, 1, 65, ["X"]⟩] [⟨1, 1, 65⟩]),
        e.utility_score = none) := by
  have h : ∀ b1 ∈ sortedNames (explodeObservations
      (mergeData [⟨1, 1, 65, ["X"]⟩] [⟨1, 1, 65⟩])),
      ∀ b2 ∈ sortedNames (explodeObservations
        (mergeData [⟨1, 1, 65, ["X"]⟩] [⟨1, 1, 65⟩])),
        choiceRate (explodeObservations
            (mergeData [⟨1, 1, 65, ["X"]⟩] [⟨1, 1, 65⟩])) b1
          = choiceRate (explodeObservations
              (mergeData [⟨1, 1, 65, ["X"]⟩] [⟨1, 1, 65⟩])) b2 := by
    have hnames : sortedNames (explodeObservations
        (mergeData [⟨1, 1, 65, ["X"]⟩] [⟨1, 1, 65⟩])) = ["X"] := by decide
    rw [hnames]
    intro b1 h1 b2 h2
    simp only [List.mem_singleton] at h1 h2
    rw [h1, h2]
  exact ⟨h, c2_nan_utility (mergeData [⟨1, 1, 65, ["X"]⟩] [⟨1, 1, 65⟩]) h⟩

/-- C3, counterexample.  The claim says `calculate_logit_regression`
never produces an error, in particular when the model fails to converge.
But the source's `try … except ImportError` catches only `ImportError`:
in an environment where statsmodels imports fine and the fit raises (here:
a convergence failure raised by the optimizer), the exception propagates to
the caller instead of yielding an empty result. -/
theorem c3_counterexample :
    calculate_logit_regression
        ⟨true, fun _ _ => .error .convergenceFailure⟩
        [⟨1, 1, 65, ["X"]⟩]
        (mergeData [⟨1, 1, 65, ["X"]⟩] [⟨1, 1, 65⟩]) =
      .error .convergenceFailure := by
  rfl

/-- C3 (amended).  The logit estimator's graceful degradation covers
only the library-unavailable case: when the statsmodels import fails, the
`except ImportError` branch returns `None` (an absent result, no error);
but when the library is available and the model fit raises an exception,
that exception is not caught and propagates to the caller. -/
theorem c3_import_guard_only
    (fit : List (List Nat) → List Bool → Except FitError (List ℚ × List ℚ))
    (design : List DesignRow) (merged : List MergedRow) :
    calculate_logit_regression ⟨false, fit⟩ design merged = .ok none
    ∧ ∀ e, fit (buildFeatures design merged).2.1 (buildFeatures design merged).2.2
          = .error e →
        calculate_logit_regression ⟨true, fit⟩ design merged = .error e := by
  constructor
  · rfl
  · intro e he
    simp [calculate_logit_regression, he]

/-- C3, witness.  The amended claim at a concrete input: with the
library missing the result is `None`; with the library present and a fit
that raises a numerical error, the error propagates. -/
theorem c3_witness :
    calculate_logit_regression ⟨false, fun _ _ => .error .numericalError⟩
        [⟨1, 1, 65, ["X"]⟩] [⟨1, 1, 65, ["X"], true⟩] = .ok none
    ∧ calculate_logit_regression ⟨true, fun _ _ => .error .numericalError⟩
        [⟨1, 1, 65, ["X"]⟩] [⟨1, 1, 65, ["X"], true⟩] = .error .numericalError :=
  ⟨(c3_import_guard_only (fun _ _ => .error .numericalError)
      [⟨1, 1, 65, ["X"]⟩] [⟨1, 1, 65, ["X"], true⟩]).1,
   (c3_import_guard_only (fun _ _ => .error .numericalError)
      [⟨1, 1, 65, ["X"]⟩] [⟨1, 1, 65, ["X"], true⟩]).2 .numericalError rfl⟩

/-- C1 (amended).  `ConjointSurveyDesigner` performs no configuration
validation at all: construction always succeeds (`__init__` only stores the
parameters) and `generate_survey` completes normally on degenerate
configurations, returning degenerate output rather than failing — an empty
survey list for a zero respondent count, surveys with empty question lists
for a zero question count, and surveys whose bundles are all empty for an
empty benefit catalog. -/
theorem c1_no_validation (sampler : Sampler)
    (hlen : ∀ s pop k, k ≤ pop.length → (sampler s pop k).length = k)
    (benefits : List String) (items nq na nr seed : Nat) :
    generate_survey sampler benefits items nq na 0 seed = []
    ∧ (∀ svy ∈ generate_survey sampler benefits items 0 na nr seed,
        svy.questions = [])
    ∧ (benefits = [] →
        ∀ svy ∈ generate_survey sampler benefits items nq na nr seed,
          ∀ q ∈ svy.questions, ∀ alt ∈ q.alternatives, alt.benefits = []) := by
  refine ⟨rfl, ?_, ?_⟩
  · intro svy h
    unfold generate_survey at h
    have : ∀ k rid s, ∀ svy ∈ (genSurveys sampler benefits items 0 na k rid s).1,
        svy.questions = [] := by
      intro k
      induction k with
      | zero => intro rid s svy hs; cases hs
      | succ m ih =>
        intro rid s svy hs
        simp only [genSurveys, List.mem_cons] at hs
        cases hs with
        | inl hs => subst hs; rfl
        | inr hs => exact ih (rid + 1) _ svy hs
    exact this nr 1 seed svy h
  · intro hb svy h q hq alt halt
    subst hb
    exact genSurveys_benefits_nil sampler hlen items nq na nr 1 seed svy h q hq alt halt

/-- C1, witness.  The amended claim applied to the `takeSampler` at a
concrete configuration. -/
theorem c1_witness :
    generate_survey takeSampler ["a", "b"] 2 3 2 0 7 = []
    ∧ (∀ svy ∈ generate_survey takeSampler ["a", "b"] 2 0 2 5 7,
        svy.questions = [])
    ∧ ((["a", "b"] : List String) = [] →
        ∀ svy ∈ generate_survey takeSampler ["a", "b"] 2 3 2 5 7,
          ∀ q ∈ svy.questions, ∀ alt ∈ q.alternatives, alt.benefits = []) :=
  c1_no_validation takeSampler takeSampler_length ["a", "b"] 2 3 2 5 7

/-- C4.  For every valid configuration (`respondent_count ≥ 1`,
`questions_per_respondent ≥ 1`, `alternatives_per_question ≥ 2`,
`benefits_per_alternative ≥ 1`), `generate_survey` followed by
`export_to_csv` produces exactly
`respondent_count × questions_per_respondent × alternatives_per_question`
design rows, and every row carries exactly `benefits_per_alternative`
benefit columns (shorter bundles being padded with empty cells by
`padBenefits`). -/
theorem c4_row_counts (sampler : Sampler) (benefits : List String)
    (items nq na nr seed : Nat)
    (_hr : 1 ≤ nr) (_hq : 1 ≤ nq) (_ha : 2 ≤ na) (_hk : 1 ≤ items) :
    (export_to_csv items (generate_survey sampler benefits items nq na nr seed)).length
        = nr * nq * na
    ∧ ∀ row ∈ export_to_csv items (generate_survey sampler benefits items nq na nr seed),
        row.benefits.length = items := by
  constructor
  · rw [generate_survey,
      export_length items nq na _
        (genSurveys_shape sampler benefits items nq na nr 1 seed),
      genSurveys_length]
    ring
  · exact mem_export_benefits_length items _

/-- C4, witness.  The spec's own scenario: catalog `["A","B","C","D"]`,
2 respondents, 1 question, 2 alternatives, 2 benefits per alternative gives
`2 × 1 × 2 = 4` design rows of 2 benefit columns each. -/
theorem c4_witness :
    (export_to_csv 2 (generate_survey takeSampler ["A", "B", "C", "D"] 2 1 2 2 0)).length
        = 2 * 1 * 2
    ∧ ∀ row ∈ export_to_csv 2 (generate_survey takeSampler ["A", "B", "C", "D"] 2 1 2 2 0),
        row.benefits.length = 2 :=
  c4_row_counts takeSampler ["A", "B", "C", "D"] 2 1 2 2 0
    (by norm_num) (by norm_num) (by norm_num) (by norm_num)

/-- C7.  For every catalog (of distinct names) and exclusion set, the
bundle sampler computes `available = catalog − exclusion`; when
`|available| < benefits_per_alternative` it resets availability to the full
catalog for this draw, and otherwise keeps the exclusion-filtered list; it
returns `min(benefits_per_alternative, |available|)` distinct names drawn —
by the abstract `random.sample`, whose structural contract is the three
sampler hypotheses and whose uniformity lives in the abstraction — without
replacement from `available`.  The requested size never exceeds the
population (last conjunct), which is why catalog exhaustion never raises
`random.sample`'s error. -/
theorem c7_bundle_sampler (sampler : Sampler)
    (hlen : ∀ s pop k, k ≤ pop.length → (sampler s pop k).length = k)
    (hnd : ∀ s pop k, pop.Nodup → (sampler s pop k).Nodup)
    (hsub : ∀ s pop k, ∀ x ∈ sampler s pop k, x ∈ pop)
    (benefits : List String) (items : Nat) (exclude : List String) (seed : Nat)
    (hcat : benefits.Nodup) :
    (generate_random_bundle sampler benefits items exclude seed).length
        = min items (availablePool benefits items exclude).length
    ∧ (generate_random_bundle sampler benefits items exclude seed).Nodup
    ∧ (∀ x ∈ generate_random_bundle sampler benefits items exclude seed,
        x ∈ availablePool benefits items exclude)
    ∧ ((benefits.filter (fun b => decide (b ∉ exclude))).length < items →
        availablePool benefits items exclude = benefits)
    ∧ (items ≤ (benefits.filter (fun b => decide (b ∉ exclude))).length →
        availablePool benefits items exclude
          = benefits.filter (fun b => decide (b ∉ exclude)))
    ∧ min items (availablePool benefits items exclude).length
        ≤ (availablePool benefits items exclude).length := by
  have hpoolnd : (availablePool benefits items exclude).Nodup := by
    rw [availablePool]
    split
    · exact hcat
    · exact hcat.filter _
  refine ⟨?_, ?_, ?_, ?_, ?_, Nat.min_le_right _ _⟩
  · exact hlen seed _ _ (Nat.min_le_right _ _)
  · exact hnd seed _ _ hpoolnd
  · exact hsub seed _ _
  · intro h
    rw [availablePool, if_pos h]
  · intro h
    rw [availablePool, if_neg (Nat.not_lt.2 h)]

/-- C7, witness.  The bundle sampler applied to the `takeSampler` at a
concrete catalog and exclusion set (no fallback needed there). -/
theorem c7_witness :
    (generate_random_bundle takeSampler ["a", "b", "c"] 2 ["a"] 0).length
        = min 2 (availablePool ["a", "b", "c"] 2 ["a"]).length
    ∧ (generate_random_bundle takeSampler ["a", "b", "c"] 2 ["a"] 0).Nodup
    ∧ (∀ x ∈ generate_random_bundle takeSampler ["a", "b", "c"] 2 ["a"] 0,
        x ∈ availablePool ["a", "b", "c"] 2 ["a"])
    ∧ (((["a", "b", "c"] : List String).filter (fun b => decide (b ∉ (["a"] : List String)))).length < 2 →
        availablePool ["a", "b", "c"] 2 ["a"] = ["a", "b", "c"])
    ∧ (2 ≤ ((["a", "b", "c"] : List String).filter (fun b => decide (b ∉ (["a"] : List String)))).length →
        availablePool ["a", "b", "c"] 2 ["a"]
          = (["a", "b", "c"] : List String).filter (fun b => decide (b ∉ (["a"] : List String))))
    ∧ min 2 (availablePool ["a", "b", "c"] 2 ["a"]).length
        ≤ (availablePool ["a", "b", "c"] 2 ["a"]).length :=
  c7_bundle_sampler takeSampler takeSampler_length takeSampler_nodup
    takeSampler_subset ["a", "b", "c"] 2 ["a"] 0 (by decide)

/-- C5.  For every generated question, if the catalog is large enough
that the bundle sampler's fallback never triggered while building that
question (the instrumentation flag is `false`), then the benefit sets of
any two distinct alternatives of the question are disjoint.  Holds for any
realization of `random.sample` that draws from the handed population (the
`hsub` hypothesis). -/
theorem c5_disjoint_alternatives (sampler : Sampler)
    (hsub : ∀ s pop k, ∀ x ∈ sampler s pop k, x ∈ pop)
    (benefits : List String) (items nAlt qid seed : Nat)
    (hnofb : (generate_question sampler benefits items nAlt qid seed).2.2 = false) :
    List.Pairwise (fun a b => ∀ x ∈ a.benefits, x ∉ b.benefits)
      (generate_question sampler benefits items nAlt qid seed).1.alternatives :=
  (genAlternatives_disjoint sampler hsub benefits items nAlt 0 [] seed hnofb).2

/-- C5, witness.  A concrete question built with the `takeSampler` over
a four-benefit catalog with two alternatives of two benefits each: the
fallback never triggers and the two bundles are disjoint. -/
theorem c5_witness :
    (generate_question takeSampler ["A", "B", "C", "D"] 2 2 1 0).2.2 = false
    ∧ List.Pairwise (fun a b => ∀ x ∈ a.benefits, x ∉ b.benefits)
        (generate_question takeSampler ["A", "B", "C", "D"] 2 2 1 0).1.alternatives :=
  ⟨by decide,
   c5_disjoint_alternatives takeSampler takeSampler_subset
     ["A", "B", "C", "D"] 2 2 1 0 (by decide)⟩

/-- C6.  A design row whose `(respondent_id, question_id)` pair has no
matching response row is not dropped by the merge: it survives as a merged
row with `chosen = false`, and in the scorecard aggregation its non-empty
benefit cells still add to `times_shown` of those benefits while adding
nothing to `times_chosen`. -/
theorem c6_unmatched_counts_shown (design : List DesignRow)
    (responses : List ResponseRow) (d : DesignRow)
    (hno : responses.countP (fun r =>
        decide (r.respondent_id = d.respondent_id) &&
          decide (r.question_id = d.question_id)) = 0) :
    mergeData (design ++ [d]) responses
        = mergeData design responses
          ++ [⟨d.respondent_id, d.question_id, d.alternative, d.benefits, false⟩]
    ∧ (∀ b, timesShown (explodeObservations (mergeData (design ++ [d]) responses)) b
        = timesShown (explodeObservations (mergeData design responses)) b
          + (d.benefits.filter (fun c => decide (c ≠ ""))).countP (fun c => decide (c = b)))
    ∧ (∀ b, timesChosen (explodeObservations (mergeData (design ++ [d]) responses)) b
        = timesChosen (explodeObservations (mergeData design responses)) b) := by
  have hms : responses.filter (fun r =>
      decide (r.respondent_id = d.respondent_id) &&
        decide (r.question_id = d.question_id)) = [] := by
    rw [← List.length_eq_zero, ← List.countP_eq_length_filter]
    exact hno
  have hrowsOf : mergeRowsOf d responses
      = [⟨d.respondent_id, d.question_id, d.alternative, d.benefits, false⟩] := by
    rw [mergeRowsOf, hms]
  have hmerge : mergeData (design ++ [d]) responses
      = mergeData design responses
        ++ [⟨d.respondent_id, d.question_id, d.alternative, d.benefits, false⟩] := by
    rw [mergeData, List.flatMap_append, ← mergeData]
    simp only [List.flatMap_cons, List.flatMap_nil, List.append_nil, hrowsOf]
  refine ⟨hmerge, ?_, ?_⟩
  · intro b
    rw [hmerge, timesShown, explodeObservations, List.flatMap_append,
      List.countP_append, ← explodeObservations, ← timesShown]
    congr 1
    simp only [explodeObservations, List.flatMap_cons, List.flatMap_nil,
      List.append_nil, List.countP_map]
    rfl
  · intro b
    rw [hmerge, timesChosen, explodeObservations, List.flatMap_append,
      List.countP_append, ← explodeObservations, ← timesChosen]
    simp [List.flatMap_cons, List.flatMap_nil, List.countP_map, Function.comp]

/-- C6, witness.  A concrete design row with pair `(2, 1)` and no
matching response: it is merged with `chosen = false`, its non-empty benefit
cell `"Y"` adds one to `times_shown` of `"Y"`, and nothing is added to
`times_chosen`. -/
theorem c6_witness :
    mergeData ([⟨1, 1, 65, ["X"]⟩] ++ [⟨2, 1, 66, ["Y", ""]⟩]) [⟨1, 1, 65⟩]
        = mergeData [⟨1, 1, 65, ["X"]⟩] [⟨1, 1, 65⟩] ++ [⟨2, 1, 66, ["Y", ""], false⟩]
    ∧ (∀ b, timesShown (explodeObservations
          (mergeData ([⟨1, 1, 65, ["X"]⟩] ++ [⟨2, 1, 66, ["Y", ""]⟩]) [⟨1, 1, 65⟩])) b
        = timesShown (explodeObservations (mergeData [⟨1, 1, 65, ["X"]⟩] [⟨1, 1, 65⟩])) b
          + ((["Y", ""] : List String).filter (fun c => decide (c ≠ ""))).countP
              (fun c => decide (c = b)))
    ∧ (∀ b, timesChosen (explodeObservations
          (mergeData ([⟨1, 1, 65, ["X"]⟩] ++ [⟨2, 1, 66, ["Y", ""]⟩]) [⟨1, 1, 65⟩])) b
        = timesChosen (explodeObservations (mergeData [⟨1, 1, 65, ["X"]⟩] [⟨1, 1, 65⟩])) b) :=
  c6_unmatched_counts_shown [⟨1, 1, 65, ["X"]⟩] [⟨1, 1, 65⟩] ⟨2, 1, 66, ["Y", ""]⟩
    (by decide)

/-- C9.  (i) The alternative labels generated within one question
(`chr(65 + alt_id)` for consecutive `alt_id`) are pairwise distinct;
(ii) consequently, for any design whose rows of one
`(respondent_id, question_id)` pair carry pairwise distinct labels and any
response table with at most one row per pair, at most one merged row of
each pair has `chosen = true`; (iii) `times_chosen` never exceeds
`times_shown` for any benefit. -/
theorem c9_at_most_one_chosen :
    (∀ (sampler : Sampler) (benefits : List String) (items nAlt qid seed : Nat),
      ((generate_question sampler benefits items nAlt qid seed).1.alternatives.map
        Alternative.alternative_id).Nodup)
    ∧ (∀ (design : List DesignRow) (responses : List ResponseRow),
        responses.Pairwise (fun r1 r2 =>
          ¬(r1.respondent_id = r2.respondent_id ∧ r1.question_id = r2.question_id)) →
        design.Pairwise (fun d1 d2 =>
          d1.respondent_id = d2.respondent_id → d1.question_id = d2.question_id →
            d1.alternative ≠ d2.alternative) →
        ∀ rid qid,
          (mergeData design responses).countP
              (fun m => decide (m.respondent_id = rid) && decide (m.question_id = qid)
                && m.chosen) ≤ 1)
    ∧ (∀ (merged : List MergedRow) (b : String),
        timesChosen (explodeObservations merged) b
          ≤ timesShown (explodeObservations merged) b) := by
  refine ⟨?_, ?_, ?_⟩
  · intro sampler benefits items nAlt qid seed
    exact (genAlternatives_labels sampler benefits items nAlt 0 [] seed).2
  · intro design responses hR hD rid qid
    have hresp : (responses.filter (fun r =>
        decide (r.respondent_id = rid) && decide (r.question_id = qid))).length ≤ 1 := by
      rw [← List.countP_eq_length_filter]
      apply countP_le_one_of_pairwise hR
      intro a b ha hb hP
      simp only [Bool.and_eq_true, decide_eq_true_eq] at ha hb
      exact hP ⟨ha.1.trans hb.1.symm, ha.2.trans hb.2.symm⟩
    refine le_trans (mergeData_chosen_count responses rid qid hresp design) ?_
    apply countP_le_one_of_pairwise hD
    intro d1 d2 h1 h2 hP
    simp only [Bool.and_eq_true, decide_eq_true_eq] at h1 h2
    obtain ⟨⟨h1r, h1q⟩, h1f⟩ := h1
    obtain ⟨⟨h2r, h2q⟩, h2f⟩ := h2
    cases hM : responses.filter (fun r =>
        decide (r.respondent_id = rid) && decide (r.question_id = qid)) with
    | nil =>
      rw [respMatchFlag, hM] at h1f
      cases h1f
    | cons r tail =>
      cases tail with
      | cons r2 t2 =>
        rw [respMatchFlag, hM] at h1f
        cases h1f
      | nil =>
        rw [respMatchFlag, hM] at h1f h2f
        simp only [decide_eq_true_eq] at h1f h2f
        exact hP (h1r.trans h2r.symm) (h1q.trans h2q.symm) (h1f.trans h2f.symm)
  · intro merged b
    apply List.countP_mono_left
    intro o _ h
    simp only [Bool.and_eq_true] at h
    exact h.1

/-- C9, witness.  The three parts at concrete inputs: a concretely
generated question's labels are distinct; a two-alternative design of pair
`(1, 1)` with a single response choosing label 65 has at most one chosen
merged row for every pair; and a concrete benefit's chosen count is bounded
by its shown count. -/
theorem c9_witness :
    ((generate_question takeSampler ["A", "B", "C", "D"] 2 2 1 0).1.alternatives.map
      Alternative.alternative_id).Nodup
    ∧ (∀ rid qid,
        (mergeData [⟨1, 1, 65, ["X"]⟩, ⟨1, 1, 66, ["Y"]⟩] [⟨1, 1, 65⟩]).countP
            (fun m => decide (m.respondent_id = rid) && decide (m.question_id = qid)
              && m.chosen) ≤ 1)
    ∧ timesChosen (explodeObservations [⟨1, 1, 65, ["X"], true⟩]) "X"
        ≤ timesShown (explodeObservations [⟨1, 1, 65, ["X"], true⟩]) "X" :=
  ⟨c9_at_most_one_chosen.1 takeSampler ["A", "B", "C", "D"] 2 2 1 0,
   c9_at_most_one_chosen.2.1 [⟨1, 1, 65, ["X"]⟩, ⟨1, 1, 66, ["Y"]⟩] [⟨1, 1, 65⟩]
     (List.pairwise_singleton _ _)
     (by
       refine List.Pairwise.cons ?_ (List.pairwise_singleton _ _)
       intro d hd
       simp only [List.mem_singleton] at hd
       subst hd
       decide),
   c9_at_most_one_chosen.2.2 [⟨1, 1, 65, ["X"], true⟩] "X"⟩

/-- C10.  Calling `calculate_preference_scores` on a freshly constructed
`ConjointAnalyzer`, before `merge_data` has run, fails for every
design/response input: `__init__` sets `self.merged_df = None` and the
scoring step iterates `self.merged_df.iterrows()`, raising
`AttributeError: 'NoneType' object has no attribute 'iterrows'`. -/
theorem c10_requires_merge (design : List DesignRow) (responses : List ResponseRow) :
    (ConjointAnalyzer.init design responses).calculate_preference_scores =
      .error .noneTypeNoIterrows := by
  rfl

/-- C8.  Running the scoring engine twice on the same merged data yields
bit-identical scorecards: after `merge_data`, a first and a second call of
`calculate_preference_scores` on the resulting analyzer state return equal
scorecards — the aggregation and ranking are deterministic functions of the
merged table (the embedding of the scoring path is a pure function; the
source's scoring code consults no random source). -/
theorem c8_deterministic_scoring (design : List DesignRow)
    (responses : List ResponseRow) :
    ∀ s1 a1 s2 a2,
      ((ConjointAnalyzer.init design responses).merge_data.2).calculate_preference_scores
          = .ok (s1, a1) →
      a1.calculate_preference_scores = .ok (s2, a2) →
      s1 = s2 := by
  intro s1 a1 s2 a2 h1 h2
  simp only [ConjointAnalyzer.init, ConjointAnalyzer.merge_data,
    ConjointAnalyzer.calculate_preference_scores, Except.ok.injEq, Prod.mk.injEq] at h1
  obtain ⟨hs1, ha1⟩ := h1
  subst ha1
  simp only [ConjointAnalyzer.calculate_preference_scores, Except.ok.injEq,
    Prod.mk.injEq] at h2
  obtain ⟨hs2, -⟩ := h2
  rw [← hs1, ← hs2]

/-- C8, witness.  The two-run determinism applied at a concrete input
(the empty design and response tables, whose scorecard is empty). -/
theorem c8_witness : ([] : List ScoreEntry) = [] :=
  c8_deterministic_scoring [] [] []
    ⟨[], [], some [], some []⟩ []
    ⟨[], [], some [], some []⟩ rfl rfl

end BenefitsSurvey
